import Mathlib

/-!
Verification of the scroll-area widget (`src/widgets/scroll_area.rs`) of the
`tui-toolkit-rs` repository.

The development shallowly embeds the source file's data model and operations:

* `Rect` and `Buffer` model the external collaborator types per the buffer
  contract of the specification (a rect is origin plus size; a buffer is a
  rect together with a flat, row-major cell store, here represented as a
  total function from flat indices to cells).
* `scroll` is the blit helper (lines 31-49 of the source): it clamps the
  offset against the outer size, computes the cut rectangle, and copies
  cell by cell with destination index `(outer.y + y) * outer.width +
  (outer.x + x)` and source index `y * inner.width + x`.  These index
  expressions are u16 arithmetic in the source; the embedding computes them
  with an explicit wrap modulo 2^16 (`wrap16`), the release-mode overflow
  semantics.
* `StatefulScrollState` with its constructors and saturating mutators
  (lines 66-210) models the scroll state; u16 values are modelled as `Nat`
  with saturation at `u16MAX` made explicit.
* `ScrollArea.render` and `StatefulScrollArea.render` model the two render
  impls (lines 244-257 and 288-301); the nested widget is modelled as an
  arbitrary function producing the rendered inner buffer.
-/

namespace TuiToolkit

/-- Model of the external `Rect` collaborator: origin `(x, y)` plus
`(width, height)`, all unsigned 16-bit in the source, modelled as `Nat`. -/
structure Rect where
  x : Nat
  y : Nat
  width : Nat
  height : Nat
deriving DecidableEq, Repr

/-- Mirror of `Rect::new(x, y, width, height)`. -/
def Rect.new (x y width height : Nat) : Rect := ⟨x, y, width, height⟩

/-- Model of the external `Buffer` collaborator: a rect together with a flat
row-major cell store.  The store is modelled as a total function from flat
indices to cells; the real buffer holds `area.width * area.height` cells. -/
structure Buffer (α : Type) where
  area : Rect
  content : Nat → α

/-- Mirror of `Buffer::empty(rect)`: every cell holds the default cell. -/
def Buffer.empty (d : α) (r : Rect) : Buffer α := ⟨r, fun _ => d⟩

/-- The maximum of the unsigned 16-bit coordinate type. -/
def u16MAX : Nat := 65535

/-- Mirror of `u16::saturating_add` on the `Nat` model. -/
def satAdd (a b : Nat) : Nat := min (a + b) u16MAX

/-- Mirror of `u16::saturating_sub`; `Nat` subtraction already saturates at 0. -/
def satSub (a b : Nat) : Nat := a - b

/-- u16 wrapping (release-mode overflow semantics): reduce modulo 2^16. -/
def wrap16 (n : Nat) : Nat := n % 65536

/-- Destination flat index computed by the blit loop body (lines 43-46) in
u16 arithmetic: `outer_y = outer.y + y` and `outer_x = outer.x + x` are u16
additions and `outer_y * outer.width + outer_x` a u16 multiply and add, each
wrapping modulo 2^16 before the cast to usize. -/
def dstIndex (outer : Rect) (y x : Nat) : Nat :=
  wrap16 (wrap16 (wrap16 (outer.y + y) * outer.width) + wrap16 (outer.x + x))

/-- Source flat index computed by the blit loop body (line 46) in u16
arithmetic: `y * inner.width + x` with wrapping multiply and add. -/
def srcIndex (innerW y x : Nat) : Nat := wrap16 (wrap16 (y * innerW) + x)

/-- The destination index is the u16 wrap of the unbounded row-major value. -/
theorem dstIndex_mod (outer : Rect) (y x : Nat) :
    dstIndex outer y x = ((outer.y + y) * outer.width + (outer.x + x)) % 65536 := by
  unfold dstIndex wrap16
  rw [Nat.mod_mul_mod, ← Nat.add_mod]

/-- The source index is the u16 wrap of the unbounded row-major value. -/
theorem srcIndex_mod (innerW y x : Nat) :
    srcIndex innerW y x = (y * innerW + x) % 65536 := by
  unfold srcIndex wrap16
  rw [Nat.mod_add_mod]

/-- When the row-major value fits in u16, no wrap occurs and the computed
destination index equals the unbounded value. -/
theorem dstIndex_eq_of_fit (outer : Rect) {y x : Nat}
    (h : (outer.y + y) * outer.width + (outer.x + x) < 65536) :
    dstIndex outer y x = (outer.y + y) * outer.width + (outer.x + x) := by
  rw [dstIndex_mod]
  exact Nat.mod_eq_of_lt h

/-- When the row-major value fits in u16, no wrap occurs and the computed
source index equals the unbounded value. -/
theorem srcIndex_eq_of_fit (innerW : Nat) {y x : Nat} (h : y * innerW + x < 65536) :
    srcIndex innerW y x = y * innerW + x := by
  rw [srcIndex_mod]
  exact Nat.mod_eq_of_lt h

/-- A wrapped destination index is always below 2^16. -/
theorem dstIndex_lt_wrap (outer : Rect) (y x : Nat) : dstIndex outer y x < 65536 := by
  rw [dstIndex_mod]
  exact Nat.mod_lt _ (by decide)

/-- The clamped position computed at line 33 of the source:
`(min(scroll.0, outer.width), min(scroll.1, outer.height))`. -/
def posOf (scr : Nat × Nat) (outer : Rect) : Nat × Nat :=
  (min scr.1 outer.width, min scr.2 outer.height)

/-- The cut rectangle computed at lines 34-39 of the source. -/
def cutOf (scr : Nat × Nat) (outer inner : Rect) : Rect :=
  Rect.new (posOf scr outer).1 (posOf scr outer).2
    (if inner.width ≥ outer.width then outer.width - (posOf scr outer).1 else inner.width)
    (if inner.height ≥ outer.height then outer.height - (posOf scr outer).2 else inner.height)

/-- The copy double loop of lines 42-48 of the source, as nested folds over
`0..cut.height` and `0..cut.width`; each iteration assigns the cell at
`dstIndex` the source cell at `srcIndex`. -/
def copyLoop {α : Type} (outer : Rect) (innerW : Nat) (src : Nat → α) (cw ch : Nat)
    (c0 : Nat → α) : Nat → α :=
  (List.range ch).foldl (fun c y =>
    (List.range cw).foldl (fun c x =>
      Function.update c (dstIndex outer y x) (src (srcIndex innerW y x))) c) c0

/-- Mirror of the private helper `fn scroll(scroll, outer, inner, inner_buf,
outer_buf)` (lines 31-49): clamp the offset, compute the cut rectangle, and
copy the cut into the output buffer. -/
def scroll (scr : Nat × Nat) (outer inner : Rect) (inner_buf outer_buf : Buffer α) :
    Buffer α :=
  ⟨outer_buf.area,
    copyLoop outer inner.width inner_buf.content
      (cutOf scr outer inner).width (cutOf scr outer inner).height outer_buf.content⟩

/-- Mirror of `StatefulScrollState<S>` (lines 66-72): the scroll position as
an `x` times `y` pair plus the nested widget state. -/
structure StatefulScrollState (S : Type) where
  pos : Nat × Nat
  state : S
deriving Repr

/-- Mirror of the `Default` impl (lines 75-78). -/
instance (S : Type) [Inhabited S] : Inhabited (StatefulScrollState S) :=
  ⟨⟨(0, 0), default⟩⟩

/-- Mirror of `StatefulScrollState::new(state)` (line 88). -/
def StatefulScrollState.new (state : S) : StatefulScrollState S := ⟨(0, 0), state⟩

/-- Mirror of `reset` (lines 98-101). -/
def StatefulScrollState.reset (s : StatefulScrollState S) : StatefulScrollState S :=
  ⟨(0, 0), s.state⟩

/-- Mirror of `scroll_up_by` (lines 119-122): `pos.1.saturating_sub(n)`. -/
def StatefulScrollState.scroll_up_by (s : StatefulScrollState S) (n : Nat) :
    StatefulScrollState S :=
  ⟨(s.pos.1, satSub s.pos.2 n), s.state⟩

/-- Mirror of `scroll_up` (line 108). -/
def StatefulScrollState.scroll_up (s : StatefulScrollState S) : StatefulScrollState S :=
  s.scroll_up_by 1

/-- Mirror of `scroll_right_by` (lines 140-143): `pos.0.saturating_add(n)`. -/
def StatefulScrollState.scroll_right_by (s : StatefulScrollState S) (n : Nat) :
    StatefulScrollState S :=
  ⟨(satAdd s.pos.1 n, s.pos.2), s.state⟩

/-- Mirror of `scroll_right` (line 129). -/
def StatefulScrollState.scroll_right (s : StatefulScrollState S) : StatefulScrollState S :=
  s.scroll_right_by 1

/-- Mirror of `scroll_down_by` (lines 161-164): `pos.1.saturating_add(n)`. -/
def StatefulScrollState.scroll_down_by (s : StatefulScrollState S) (n : Nat) :
    StatefulScrollState S :=
  ⟨(s.pos.1, satAdd s.pos.2 n), s.state⟩

/-- Mirror of `scroll_down` (line 150). -/
def StatefulScrollState.scroll_down (s : StatefulScrollState S) : StatefulScrollState S :=
  s.scroll_down_by 1

/-- Mirror of `scroll_left_by` (lines 182-185): `pos.0.saturating_sub(n)`. -/
def StatefulScrollState.scroll_left_by (s : StatefulScrollState S) (n : Nat) :
    StatefulScrollState S :=
  ⟨(satSub s.pos.1 n, s.pos.2), s.state⟩

/-- Mirror of `scroll_left` (line 171). -/
def StatefulScrollState.scroll_left (s : StatefulScrollState S) : StatefulScrollState S :=
  s.scroll_left_by 1

/-- Mirror of `into_state` (line 209). -/
def StatefulScrollState.into_state (s : StatefulScrollState S) : S := s.state

/-- Mirror of the alias `type ScrollState = StatefulScrollState<()>` (line 59). -/
def ScrollState : Type := StatefulScrollState Unit

/-- Mirror of `ScrollArea<W>` (lines 224-229); the nested widget is modelled
as a function from the inner rect and the fresh inner buffer to the buffer
it has rendered. -/
structure ScrollArea (α : Type) where
  widget : Rect → Buffer α → Buffer α
  inner : Nat × Nat

/-- Mirror of `ScrollArea::new(widget, inner)` (line 242). -/
def ScrollArea.new (widget : Rect → Buffer α → Buffer α) (inner : Nat × Nat) :
    ScrollArea α := ⟨widget, inner⟩

/-- Mirror of `StatefulWidget::render` for `ScrollArea` (lines 248-256):
render the widget to a fresh buffer of the inner size, then run the math. -/
def ScrollArea.render [Inhabited α] (self : ScrollArea α) (outer : Rect)
    (outer_buf : Buffer α) (state : StatefulScrollState Unit) : Buffer α :=
  scroll state.pos outer (Rect.new 0 0 self.inner.1 self.inner.2)
    (self.widget (Rect.new 0 0 self.inner.1 self.inner.2)
      (Buffer.empty default (Rect.new 0 0 self.inner.1 self.inner.2)))
    outer_buf

/-- Mirror of `StatefulScrollArea<W>` (lines 268-273); the nested stateful
widget is modelled as a function also threading a nested state. -/
structure StatefulScrollArea (α σ : Type) where
  widget : Rect → Buffer α → σ → Buffer α × σ
  inner : Nat × Nat

/-- Mirror of `StatefulWidget::render` for `StatefulScrollArea` (lines
292-300): render the widget with the nested state to a fresh inner buffer,
then run the math; the nested state is the one the widget returns. -/
def StatefulScrollArea.render [Inhabited α] (self : StatefulScrollArea α σ)
    (outer : Rect) (outer_buf : Buffer α) (state : StatefulScrollState σ) :
    Buffer α × StatefulScrollState σ :=
  ⟨scroll state.pos outer (Rect.new 0 0 self.inner.1 self.inner.2)
      (self.widget (Rect.new 0 0 self.inner.1 self.inner.2)
        (Buffer.empty default (Rect.new 0 0 self.inner.1 self.inner.2))
        state.state).1
      outer_buf,
    ⟨state.pos,
      (self.widget (Rect.new 0 0 self.inner.1 self.inner.2)
        (Buffer.empty default (Rect.new 0 0 self.inner.1 self.inner.2))
        state.state).2⟩⟩

/-- A list of keyed writes applied to a flat cell store, the general shape of
the blit's copy loop. -/
def applyWrites {ι α : Type} (key : ι → Nat) (val : ι → α) (l : List ι)
    (c : Nat → α) : Nat → α :=
  l.foldl (fun c b => Function.update c (key b) (val b)) c

theorem applyWrites_cons {ι α : Type} (key : ι → Nat) (val : ι → α) (hd : ι)
    (tl : List ι) (c : Nat → α) :
    applyWrites key val (hd :: tl) c
      = applyWrites key val tl (Function.update c (key hd) (val hd)) := rfl

theorem applyWrites_notMem {ι α : Type} (key : ι → Nat) (val : ι → α) :
    ∀ (l : List ι) (c : Nat → α) (i : Nat), (∀ b ∈ l, key b ≠ i) →
      applyWrites key val l c i = c i
  | [], _, _, _ => rfl
  | hd :: tl, c, i, h => by
    rw [applyWrites_cons,
      applyWrites_notMem key val tl _ i (fun b hb => h b (List.mem_cons_of_mem _ hb))]
    exact Function.update_noteq (Ne.symm (h hd (List.mem_cons_self _ _))) _ _

theorem applyWrites_mem {ι α : Type} (key : ι → Nat) (val : ι → α) :
    ∀ (l : List ι) (c : Nat → α) (b : ι), b ∈ l →
      (∀ b2 ∈ l, key b2 = key b → val b2 = val b) →
      applyWrites key val l c (key b) = val b
  | [], _, b, hb, _ => absurd hb (List.not_mem_nil b)
  | hd :: tl, c, b, hb, huniq => by
    rw [applyWrites_cons]
    by_cases hex : ∃ b2 ∈ tl, key b2 = key b
    · obtain ⟨b2, hb2, hk⟩ := hex
      have h2 : applyWrites key val tl (Function.update c (key hd) (val hd)) (key b2)
          = val b2 :=
        applyWrites_mem key val tl _ b2 hb2 (fun b3 hb3 hk3 => by
          rw [huniq b3 (List.mem_cons_of_mem _ hb3) (hk3.trans hk),
            huniq b2 (List.mem_cons_of_mem _ hb2) hk])
      rw [← hk, h2, huniq b2 (List.mem_cons_of_mem _ hb2) hk]
    · push_neg at hex
      rw [applyWrites_notMem key val tl _ _ hex]
      rcases List.mem_cons.1 hb with rfl | hbtl
      · exact Function.update_same _ _ _
      · exact absurd rfl (hex b hbtl)

theorem applyWrites_congr {ι α : Type} (key : ι → Nat) (val : ι → α) :
    ∀ (l : List ι) (c c2 : Nat → α) (i : Nat),
      (c i = c2 i ∨ ∃ b ∈ l, key b = i) →
      applyWrites key val l c i = applyWrites key val l c2 i
  | [], c, c2, i, h => by
    rcases h with h | ⟨b, hb, _⟩
    · exact h
    · exact absurd hb (List.not_mem_nil b)
  | hd :: tl, c, c2, i, h => by
    rw [applyWrites_cons, applyWrites_cons]
    by_cases hhd : key hd = i
    · refine applyWrites_congr key val tl _ _ i (Or.inl ?_)
      rw [← hhd, Function.update_same, Function.update_same]
    · refine applyWrites_congr key val tl _ _ i ?_
      rcases h with h | ⟨b, hb, hkb⟩
      · refine Or.inl ?_
        rw [Function.update_noteq (fun h2 => hhd h2.symm) _ _,
          Function.update_noteq (fun h2 => hhd h2.symm) _ _]
        exact h
      · rcases List.mem_cons.1 hb with rfl | hbtl
        · exact absurd hkb hhd
        · exact Or.inr ⟨b, hbtl, hkb⟩

/-- Replaying an identical write list over its own output changes nothing:
written keys are overwritten with the same values and the rest was never
touched.  This holds with or without key collisions. -/
theorem applyWrites_idem {ι α : Type} (key : ι → Nat) (val : ι → α) (l : List ι)
    (c : Nat → α) :
    applyWrites key val l (applyWrites key val l c) = applyWrites key val l c := by
  funext i
  by_cases hex : ∃ b ∈ l, key b = i
  · exact applyWrites_congr key val l _ c i (Or.inr hex)
  · push_neg at hex
    exact applyWrites_notMem key val l _ i hex

theorem foldl_over_bind {β γ δ : Type} (f : β → List γ) (g : δ → γ → δ) :
    ∀ (l : List β) (init : δ),
      (l.flatMap f).foldl g init = l.foldl (fun acc b => (f b).foldl g acc) init
  | [], _ => rfl
  | hd :: tl, init => by
    rw [List.flatMap_cons, List.foldl_append, List.foldl_cons, foldl_over_bind f g tl]

/-- The row-column pairs visited by the copy loop, outer row first. -/
def indexPairs (h w : Nat) : List (Nat × Nat) :=
  (List.range h).flatMap (fun y => (List.range w).map (fun x => (y, x)))

theorem mem_indexPairs {h w : Nat} {p : Nat × Nat} :
    p ∈ indexPairs h w ↔ p.1 < h ∧ p.2 < w := by
  cases p with
  | mk a b =>
    simp only [indexPairs, List.mem_flatMap, List.mem_map, List.mem_range, Prod.mk.injEq]
    constructor
    · rintro ⟨y, hy, x, hx, rfl, rfl⟩
      exact ⟨hy, hx⟩
    · rintro ⟨ha, hb⟩
      exact ⟨a, ha, b, hb, rfl, rfl⟩

theorem copyLoop_eq_applyWrites {α : Type} (outer : Rect) (innerW : Nat)
    (src : Nat → α) (cw ch : Nat) (c0 : Nat → α) :
    copyLoop outer innerW src cw ch c0 =
      applyWrites (fun p => dstIndex outer p.1 p.2)
        (fun p => src (srcIndex innerW p.1 p.2)) (indexPairs ch cw) c0 := by
  unfold copyLoop applyWrites indexPairs
  rw [foldl_over_bind]
  congr 1
  funext c y
  rw [List.foldl_map]

/-- Row-major flat indices with both column parts below the stride decompose
uniquely into row and column. -/
theorem rowMajor_inj {W a b x y : Nat} (hx : x < W) (hy : y < W)
    (h : a * W + x = b * W + y) : a = b ∧ x = y := by
  have hW : 0 < W := Nat.lt_of_le_of_lt (Nat.zero_le x) hx
  have ha : (a * W + x) / W = a := by
    rw [Nat.mul_comm a W, Nat.mul_add_div hW, Nat.div_eq_of_lt hx, Nat.add_zero]
  have hb : (b * W + y) / W = b := by
    rw [Nat.mul_comm b W, Nat.mul_add_div hW, Nat.div_eq_of_lt hy, Nat.add_zero]
  have hab : a = b := by rw [← ha, ← hb, h]
  refine ⟨hab, ?_⟩
  subst hab
  exact Nat.add_left_cancel h

/-- Two loop iterations with column index below the cut width (which is at
most the outer width) have distinct unbounded row-major destination values
unless they are the same iteration. -/
theorem dstValue_inj (outer : Rect) {cw y x y2 x2 : Nat} (hcw : cw ≤ outer.width)
    (hx : x < cw) (hx2 : x2 < cw)
    (h : (outer.y + y) * outer.width + (outer.x + x)
       = (outer.y + y2) * outer.width + (outer.x + x2)) : y = y2 ∧ x = x2 := by
  rw [Nat.add_comm outer.x x, ← Nat.add_assoc] at h
  rw [Nat.add_comm outer.x x2, ← Nat.add_assoc] at h
  have h2 := Nat.add_right_cancel h
  have h3 := rowMajor_inj (Nat.lt_of_lt_of_le hx hcw) (Nat.lt_of_lt_of_le hx2 hcw) h2
  exact ⟨Nat.add_left_cancel h3.1, h3.2⟩

/-- When the whole loop's destination arithmetic fits in u16, the unbounded
row-major value of every iteration fits in u16. -/
theorem dstValue_fit (outer : Rect) {cw ch y x : Nat} (hy : y < ch) (hx : x < cw)
    (hfit : (outer.y + ch) * outer.width + outer.x + cw ≤ 65536) :
    (outer.y + y) * outer.width + (outer.x + x) < 65536 := by
  have h1 : (outer.y + y) * outer.width ≤ (outer.y + ch) * outer.width :=
    Nat.mul_le_mul_right _ (by omega)
  omega

/-- When the whole loop's source arithmetic fits in u16, the unbounded
row-major source value of every iteration fits in u16. -/
theorem srcValue_fit (innerW : Nat) {cw ch y x : Nat} (hy : y < ch) (hx : x < cw)
    (hfit : ch * innerW + cw ≤ 65536) : y * innerW + x < 65536 := by
  have h1 : (y + 1) * innerW ≤ ch * innerW := Nat.mul_le_mul_right _ (by omega)
  have h2 : y * innerW + x < (y + 1) * innerW + cw := by
    rw [Nat.succ_mul]
    omega
  omega

/-- Under the u16 fit condition no wrap occurs, so two loop iterations write
distinct destination cells unless they are the same iteration. -/
theorem dstIndex_inj_of_fit (outer : Rect) {cw ch y x y2 x2 : Nat}
    (hcw : cw ≤ outer.width) (hy : y < ch) (hx : x < cw) (hy2 : y2 < ch)
    (hx2 : x2 < cw)
    (hfit : (outer.y + ch) * outer.width + outer.x + cw ≤ 65536)
    (h : dstIndex outer y x = dstIndex outer y2 x2) : y = y2 ∧ x = x2 := by
  rw [dstIndex_eq_of_fit outer (dstValue_fit outer hy hx hfit),
    dstIndex_eq_of_fit outer (dstValue_fit outer hy2 hx2 hfit)] at h
  exact dstValue_inj outer hcw hx hx2 h

/-- The cut width never exceeds the outer width nor the inner width. -/
theorem cutOf_width_le (scr : Nat × Nat) (outer inner : Rect) :
    (cutOf scr outer inner).width ≤ outer.width ∧
      (cutOf scr outer inner).width ≤ inner.width := by
  simp only [cutOf, Rect.new, posOf]
  constructor
  · split <;> omega
  · split <;> omega

/-- The cut height never exceeds the outer height nor the inner height. -/
theorem cutOf_height_le (scr : Nat × Nat) (outer inner : Rect) :
    (cutOf scr outer inner).height ≤ outer.height ∧
      (cutOf scr outer inner).height ≤ inner.height := by
  simp only [cutOf, Rect.new, posOf]
  constructor
  · split <;> omega
  · split <;> omega

/-- Under the u16 fit condition, a cell the copy loop writes holds the
corresponding source cell afterwards. -/
theorem copyLoop_written_of_fit {α : Type} (outer : Rect) (innerW : Nat)
    (src c0 : Nat → α) {cw ch y x : Nat} (hcw : cw ≤ outer.width)
    (hy : y < ch) (hx : x < cw)
    (hfit : (outer.y + ch) * outer.width + outer.x + cw ≤ 65536) :
    copyLoop outer innerW src cw ch c0 (dstIndex outer y x)
      = src (srcIndex innerW y x) := by
  rw [copyLoop_eq_applyWrites]
  exact applyWrites_mem _ _ _ _ (y, x) (mem_indexPairs.2 ⟨hy, hx⟩) (by
    intro p hp hk
    obtain ⟨hp1, hp2⟩ := mem_indexPairs.1 hp
    obtain ⟨hy2, hx2⟩ := dstIndex_inj_of_fit outer hcw hp1 hp2 hy hx hfit hk
    rw [hy2, hx2])

/-- A flat index that is no iteration's destination keeps its previous
value across the copy loop. -/
theorem copyLoop_untouched {α : Type} (outer : Rect) (innerW : Nat)
    (src c0 : Nat → α) {cw ch : Nat} (i : Nat)
    (h : ∀ y, y < ch → ∀ x, x < cw → i ≠ dstIndex outer y x) :
    copyLoop outer innerW src cw ch c0 i = c0 i := by
  rw [copyLoop_eq_applyWrites]
  apply applyWrites_notMem
  intro p hp
  obtain ⟨hp1, hp2⟩ := mem_indexPairs.1 hp
  exact fun hk => h p.1 hp1 p.2 hp2 hk.symm

/-- C6: every `_by` mutator applies the saturating operation to its own
coordinate of `pos` (subtraction pinned at 0, addition pinned at the u16
maximum), leaves the other coordinate and the nested payload unchanged, and
the unit-step mutators equal the `_by` variants at `n = 1`. -/
theorem scrollState_mutators_spec {S : Type} (s : StatefulScrollState S) (n : Nat) :
    (s.scroll_up_by n).pos = (s.pos.1, satSub s.pos.2 n) ∧
    (s.scroll_down_by n).pos = (s.pos.1, min (s.pos.2 + n) u16MAX) ∧
    (s.scroll_left_by n).pos = (satSub s.pos.1 n, s.pos.2) ∧
    (s.scroll_right_by n).pos = (min (s.pos.1 + n) u16MAX, s.pos.2) ∧
    (s.scroll_up_by n).state = s.state ∧
    (s.scroll_down_by n).state = s.state ∧
    (s.scroll_left_by n).state = s.state ∧
    (s.scroll_right_by n).state = s.state ∧
    s.scroll_up = s.scroll_up_by 1 ∧
    s.scroll_down = s.scroll_down_by 1 ∧
    s.scroll_left = s.scroll_left_by 1 ∧
    s.scroll_right = s.scroll_right_by 1 :=
  ⟨rfl, rfl, rfl, rfl, rfl, rfl, rfl, rfl, rfl, rfl, rfl, rfl⟩

/-- Closed instance of `scrollState_mutators_spec` at a concrete state. -/
theorem scrollState_mutators_spec_inst :
    ((StatefulScrollState.new (7 : Nat)).scroll_up_by 3).pos = (0, 0) ∧
    ((StatefulScrollState.new (7 : Nat)).scroll_down_by 3).state = 7 :=
  ⟨(scrollState_mutators_spec (StatefulScrollState.new 7) 3).1,
    (scrollState_mutators_spec (StatefulScrollState.new 7) 3).2.2.2.2.2.1⟩

/-- C7: two successive saturating downward scrolls compose into one downward
scroll by the saturating sum of the amounts. -/
theorem scroll_down_by_comp {S : Type} (s : StatefulScrollState S) (a b : Nat) :
    (s.scroll_down_by a).scroll_down_by b = s.scroll_down_by (satAdd a b) := by
  cases s with
  | mk pos state =>
    cases pos with
    | mk px py =>
      simp only [StatefulScrollState.scroll_down_by, satAdd, u16MAX,
        StatefulScrollState.mk.injEq, Prod.mk.injEq, true_and, and_true]
      omega

/-- Closed instance of `scroll_down_by_comp` at a concrete state. -/
theorem scroll_down_by_comp_inst :
    ((StatefulScrollState.new ()).scroll_down_by 3).scroll_down_by 4
      = (StatefulScrollState.new ()).scroll_down_by (satAdd 3 4) :=
  scroll_down_by_comp (StatefulScrollState.new ()) 3 4

/-- C9: `new` constructs pos `(0, 0)` around the given payload, the default
state has pos `(0, 0)` and the default payload, and `reset` restores pos
`(0, 0)` while keeping the payload. -/
theorem scrollState_construct_reset_spec {S : Type} [Inhabited S] (s0 : S)
    (s : StatefulScrollState S) :
    (StatefulScrollState.new s0).pos = (0, 0) ∧
    (StatefulScrollState.new s0).state = s0 ∧
    (default : StatefulScrollState S).pos = (0, 0) ∧
    (default : StatefulScrollState S).state = (default : S) ∧
    s.reset.pos = (0, 0) ∧
    s.reset.state = s.state :=
  ⟨rfl, rfl, rfl, rfl, rfl, rfl⟩

/-- Closed instance of `scrollState_construct_reset_spec` at concrete data. -/
theorem scrollState_construct_reset_spec_inst :
    (((StatefulScrollState.new (5 : Nat)).scroll_down_by 9).reset).pos = (0, 0) ∧
    (((StatefulScrollState.new (5 : Nat)).scroll_down_by 9).reset).state = 5 :=
  ⟨(scrollState_construct_reset_spec 0
      ((StatefulScrollState.new 5).scroll_down_by 9)).2.2.2.2.1,
    (scrollState_construct_reset_spec 0
      ((StatefulScrollState.new 5).scroll_down_by 9)).2.2.2.2.2⟩

/-- Concrete data refuting the unbounded-index reading of C1: the outer
rectangle sits at `Oy = 300` in a 250 by 600 buffer, so the loop's u16 index
arithmetic (`300 * 250 = 75000`) wraps; the offset `(249, 0)` makes the cut
a single cell. -/
def cxOuterRect : Rect := Rect.new 0 300 250 1

def cxInnerRect : Rect := Rect.new 0 0 250 1

def cxInnerBuf : Buffer Nat := ⟨cxInnerRect, fun _ => 1⟩

def cxOuterBuf : Buffer Nat := ⟨Rect.new 0 0 250 600, fun _ => 0⟩

/-- Counterexample to C1: the single loop iteration `(y, x) = (0, 0)` has
unbounded destination value `(300 + 0) * 250 + (0 + 0) = 75000`, but the
u16 arithmetic wraps it to `75000 mod 65536 = 9464`; cell 9464 — which is
not of the claimed form `(Oy + y) * Wo + (Ox + x)` for any loop iteration —
changes, so "every other cell keeps its previous value" is false of the
program. -/
theorem scroll_characterization_cex :
    (∀ y, y < (cutOf (249, 0) cxOuterRect cxInnerRect).height →
      ∀ x, x < (cutOf (249, 0) cxOuterRect cxInnerRect).width →
      9464 ≠ (cxOuterRect.y + y) * cxOuterRect.width + (cxOuterRect.x + x)) ∧
    (scroll (249, 0) cxOuterRect cxInnerRect cxInnerBuf cxOuterBuf).content 9464
      ≠ cxOuterBuf.content 9464 := by decide

/-- C1 (amended): the blit computes `px = min(sx, Wo)` and `py = min(sy,
Ho)`, the cut width is `Wo - px` when `Wi ≥ Wo` and `Wi` otherwise
(likewise the height); provided the loop's u16 index arithmetic stays in
range (`(Oy + ch) * Wo + Ox + cw ≤ 65536` and `ch * Wi + cw ≤ 65536`), each
cell `(Oy + y) * Wo + (Ox + x)` with `y` below the cut height and `x` below
the cut width receives `inner_buffer[y * Wi + x]` (source coordinates
starting at `(0, 0)`, not at the clamped position), and every other flat
cell of the outer buffer keeps its previous value.  Past 65535 the u16
index wraps and the write lands at the wrapped index instead. -/
theorem scroll_characterization_amended {α : Type} (scr : Nat × Nat)
    (outer inner : Rect) (ib ob : Buffer α)
    (hdfit : (outer.y + (cutOf scr outer inner).height) * outer.width + outer.x
        + (cutOf scr outer inner).width ≤ 65536)
    (hsfit : (cutOf scr outer inner).height * inner.width
        + (cutOf scr outer inner).width ≤ 65536) :
    posOf scr outer = (min scr.1 outer.width, min scr.2 outer.height) ∧
    (cutOf scr outer inner).width
      = (if inner.width ≥ outer.width then outer.width - min scr.1 outer.width
         else inner.width) ∧
    (cutOf scr outer inner).height
      = (if inner.height ≥ outer.height then outer.height - min scr.2 outer.height
         else inner.height) ∧
    (∀ y, y < (cutOf scr outer inner).height →
      ∀ x, x < (cutOf scr outer inner).width →
      (scroll scr outer inner ib ob).content ((outer.y + y) * outer.width + (outer.x + x))
        = ib.content (y * inner.width + x)) ∧
    (∀ i, (∀ y, y < (cutOf scr outer inner).height →
        ∀ x, x < (cutOf scr outer inner).width →
        i ≠ (outer.y + y) * outer.width + (outer.x + x)) →
      (scroll scr outer inner ib ob).content i = ob.content i) := by
  refine ⟨rfl, rfl, rfl, ?_, ?_⟩
  · intro y hy x hx
    rw [← dstIndex_eq_of_fit outer (dstValue_fit outer hy hx hdfit),
      ← srcIndex_eq_of_fit inner.width (srcValue_fit inner.width hy hx hsfit)]
    exact copyLoop_written_of_fit outer inner.width ib.content ob.content
      (cutOf_width_le scr outer inner).1 hy hx hdfit
  · intro i hi
    apply copyLoop_untouched
    intro y hy x hx heq
    rw [dstIndex_eq_of_fit outer (dstValue_fit outer hy hx hdfit)] at heq
    exact hi y hy x hx heq

/-- Concrete buffers for closed instances: a 2 by 2 inner canvas of sevens
and a 2 by 2 outer buffer of threes. -/
def wOuterRect : Rect := Rect.new 0 0 2 2

def wInnerRect : Rect := Rect.new 0 0 2 2

def wInnerBuf : Buffer Nat := ⟨wInnerRect, fun _ => 7⟩

def wOuterBuf : Buffer Nat := ⟨wOuterRect, fun _ => 3⟩

/-- Closed instance of `scroll_characterization_amended`: cell 0 is copied
from the inner buffer and cell 50 is untouched. -/
theorem scroll_characterization_amended_inst :
    (scroll (0, 0) wOuterRect wInnerRect wInnerBuf wOuterBuf).content 0 = 7 ∧
    (scroll (0, 0) wOuterRect wInnerRect wInnerBuf wOuterBuf).content 50
      = wOuterBuf.content 50 := by
  constructor
  · exact (scroll_characterization_amended (0, 0) wOuterRect wInnerRect wInnerBuf
      wOuterBuf (by decide) (by decide)).2.2.2.1 0 (by decide) 0 (by decide)
  · exact (scroll_characterization_amended (0, 0) wOuterRect wInnerRect wInnerBuf
      wOuterBuf (by decide) (by decide)).2.2.2.2 50 (by decide)

/-- Helper: any in-loop unbounded source value is below the inner cell
count. -/
theorem srcValue_lt (inner : Rect) {cw ch y x : Nat} (hcw : cw ≤ inner.width)
    (hch : ch ≤ inner.height) (hy : y < ch) (hx : x < cw) :
    y * inner.width + x < inner.width * inner.height := by
  have hxi : x < inner.width := Nat.lt_of_lt_of_le hx hcw
  have hyi : y + 1 ≤ inner.height := Nat.le_trans (Nat.succ_le_of_lt hy) hch
  calc y * inner.width + x < y * inner.width + inner.width := Nat.add_lt_add_left hxi _
    _ = (y + 1) * inner.width := (Nat.succ_mul _ _).symm
    _ ≤ inner.height * inner.width := Nat.mul_le_mul_right _ hyi
    _ = inner.width * inner.height := Nat.mul_comm _ _

/-- Helper: any in-loop source index the code computes (u16, possibly
wrapped, hence at most the unbounded value) is below the inner cell count. -/
theorem srcIndex_lt (inner : Rect) {cw ch y x : Nat} (hcw : cw ≤ inner.width)
    (hch : ch ≤ inner.height) (hy : y < ch) (hx : x < cw) :
    srcIndex inner.width y x < inner.width * inner.height := by
  have h1 : srcIndex inner.width y x ≤ y * inner.width + x := by
    rw [srcIndex_mod]
    exact Nat.mod_le _ _
  exact Nat.lt_of_le_of_lt h1 (srcValue_lt inner hcw hch hy hx)

/-- C10: the cut sizes are bounded by both the inner and the outer sizes, so
every source index `y * Wi + x` the copy reads lies strictly below the inner
cell count `Wi * Hi`, however far the user has scrolled. -/
theorem cut_bounds_inner_read_safe (scr : Nat × Nat) (outer inner : Rect) :
    (cutOf scr outer inner).width ≤ min inner.width outer.width ∧
    (cutOf scr outer inner).height ≤ min inner.height outer.height ∧
    (∀ y, y < (cutOf scr outer inner).height →
      ∀ x, x < (cutOf scr outer inner).width →
      srcIndex inner.width y x < inner.width * inner.height) := by
  refine ⟨le_min (cutOf_width_le scr outer inner).2 (cutOf_width_le scr outer inner).1,
    le_min (cutOf_height_le scr outer inner).2 (cutOf_height_le scr outer inner).1, ?_⟩
  intro y hy x hx
  exact srcIndex_lt inner (cutOf_width_le scr outer inner).2
    (cutOf_height_le scr outer inner).2 hy hx

/-- Closed instance of `cut_bounds_inner_read_safe` at concrete rects. -/
theorem cut_bounds_inner_read_safe_inst :
    (cutOf (1, 1) (Rect.new 0 0 3 3) (Rect.new 0 0 4 4)).width
      ≤ min (Rect.new 0 0 4 4).width (Rect.new 0 0 3 3).width ∧
    srcIndex (Rect.new 0 0 4 4).width 0 0
      < (Rect.new 0 0 4 4).width * (Rect.new 0 0 4 4).height :=
  ⟨(cut_bounds_inner_read_safe (1, 1) (Rect.new 0 0 3 3) (Rect.new 0 0 4 4)).1,
    (cut_bounds_inner_read_safe (1, 1) (Rect.new 0 0 3 3) (Rect.new 0 0 4 4)).2.2
      0 (by decide) 0 (by decide)⟩

/-- Helper: under the render contract (the outer rectangle lies inside an
origin-zero buffer of width `W` and height `H`), every in-loop unbounded
destination value is below the buffer cell count. -/
theorem dstValue_lt (outer : Rect) {W H cw ch y x : Nat}
    (hxW : outer.x + outer.width ≤ W) (hyH : outer.y + outer.height ≤ H)
    (hcw : cw ≤ outer.width) (hch : ch ≤ outer.height)
    (hy : y < ch) (hx : x < cw) :
    (outer.y + y) * outer.width + (outer.x + x) < W * H := by
  have h2 : outer.x + x < W := by omega
  have h4 : (outer.y + y) * outer.width ≤ (outer.y + y) * W :=
    Nat.mul_le_mul_left _ (by omega)
  have h5 : (outer.y + y) * W + (outer.x + x) < (outer.y + y + 1) * W := by
    rw [Nat.succ_mul]
    exact Nat.add_lt_add_left h2 _
  have h6 : (outer.y + y + 1) * W ≤ H * W := Nat.mul_le_mul_right _ (by omega)
  calc (outer.y + y) * outer.width + (outer.x + x)
      ≤ (outer.y + y) * W + (outer.x + x) := Nat.add_le_add_right h4 _
    _ < (outer.y + y + 1) * W := h5
    _ ≤ H * W := h6
    _ = W * H := Nat.mul_comm _ _

/-- Helper: the destination index the code computes (u16, possibly wrapped,
hence at most the unbounded value) is below the buffer cell count under the
render containment contract. -/
theorem dstIndex_lt (outer : Rect) {W H cw ch y x : Nat}
    (hxW : outer.x + outer.width ≤ W) (hyH : outer.y + outer.height ≤ H)
    (hcw : cw ≤ outer.width) (hch : ch ≤ outer.height)
    (hy : y < ch) (hx : x < cw) :
    dstIndex outer y x < W * H := by
  have h1 : dstIndex outer y x ≤ (outer.y + y) * outer.width + (outer.x + x) := by
    rw [dstIndex_mod]
    exact Nat.mod_le _ _
  exact Nat.lt_of_le_of_lt h1 (dstValue_lt outer hxW hyH hcw hch hy hx)

/-- Concrete data refuting C3's no-overflow assertion: an outer rectangle
at `Oy = 263` with `Wo = 250` inside a 250 by 600 buffer; `263 * 250 =
65750` exceeds the u16 maximum. -/
def cx3OuterRect : Rect := Rect.new 0 263 250 1

def cx3InnerRect : Rect := Rect.new 0 0 250 1

/-- Counterexample to C3: at the real loop iteration `(y, x) = (0, 0)` of a
representable input, the u16 destination index the blit computes is neither
the exact unbounded value (the arithmetic overflowed and wrapped to 214)
nor a saturated value — so the blit's index arithmetic overflows rather
than saturating, and overflow-checked builds panic here instead of being
total. -/
theorem blit_index_overflow_cex :
    0 < (cutOf (249, 0) cx3OuterRect cx3InnerRect).height ∧
    0 < (cutOf (249, 0) cx3OuterRect cx3InnerRect).width ∧
    dstIndex cx3OuterRect 0 0
      ≠ (cx3OuterRect.y + 0) * cx3OuterRect.width + (cx3OuterRect.x + 0) ∧
    dstIndex cx3OuterRect 0 0
      ≠ min ((cx3OuterRect.y + 0) * cx3OuterRect.width + (cx3OuterRect.x + 0))
          u16MAX := by decide

/-- C3 (amended): the scroll-state arithmetic saturates (downward and
rightward scrolls are pinned at `u16MAX`, upward and leftward scrolls never
increase a coordinate), but the blit's index arithmetic wraps modulo 2^16
rather than saturating, and overflow-checked builds panic once an index
expression exceeds 65535.  Under wrapping (release) semantics, with the
outer rectangle inside an origin-zero outer buffer of `W * H` cells, every
destination index the blit computes is below `W * H` and every source index
below the inner cell count `Wi * Hi`, so no access is out of bounds. -/
theorem render_total_in_bounds_amended (S : Type) (scr : Nat × Nat)
    (outer inner : Rect)
    (W H : Nat) (hxW : outer.x + outer.width ≤ W)
    (hyH : outer.y + outer.height ≤ H) :
    (∀ y, y < (cutOf scr outer inner).height →
      ∀ x, x < (cutOf scr outer inner).width →
      dstIndex outer y x < W * H ∧
      srcIndex inner.width y x < inner.width * inner.height) ∧
    (∀ (s : StatefulScrollState S) (n : Nat),
      (s.scroll_down_by n).pos.2 ≤ u16MAX ∧
      (s.scroll_right_by n).pos.1 ≤ u16MAX ∧
      (s.scroll_up_by n).pos.2 ≤ s.pos.2 ∧
      (s.scroll_left_by n).pos.1 ≤ s.pos.1) := by
  constructor
  · intro y hy x hx
    exact ⟨dstIndex_lt outer hxW hyH (cutOf_width_le scr outer inner).1
        (cutOf_height_le scr outer inner).1 hy hx,
      srcIndex_lt inner (cutOf_width_le scr outer inner).2
        (cutOf_height_le scr outer inner).2 hy hx⟩
  · intro s n
    cases s with
    | mk pos state =>
      cases pos with
      | mk px py =>
        simp only [StatefulScrollState.scroll_down_by,
          StatefulScrollState.scroll_right_by, StatefulScrollState.scroll_up_by,
          StatefulScrollState.scroll_left_by, satAdd, satSub, u16MAX]
        omega

/-- Closed instance of `render_total_in_bounds_amended` at concrete data. -/
theorem render_total_in_bounds_amended_inst :
    dstIndex (Rect.new 1 1 2 3) 0 0 < 4 * 5 ∧
    ((StatefulScrollState.new ()).scroll_down_by 70000).pos.2 ≤ u16MAX := by
  constructor
  · exact ((render_total_in_bounds_amended Unit (1, 2) (Rect.new 1 1 2 3)
      (Rect.new 0 0 4 5) 4 5 (by decide) (by decide)).1 0 (by decide) 0 (by decide)).1
  · exact ((render_total_in_bounds_amended Unit (1, 2) (Rect.new 1 1 2 3)
      (Rect.new 0 0 4 5) 4 5 (by decide) (by decide)).2
      (StatefulScrollState.new ()) 70000).1

/-- Concrete data refuting C4: outer 1 by 3, inner 1 by 2 (inner shorter
than outer), vertical offset 10 beyond the outer height. -/
def c4OuterRect : Rect := Rect.new 0 0 1 3

def c4InnerRect : Rect := Rect.new 0 0 1 2

def c4InnerBuf : Buffer Nat := ⟨c4InnerRect, fun _ => 1⟩

def c4OuterBuf : Buffer Nat := ⟨c4OuterRect, fun _ => 0⟩

/-- Counterexample to C4: with `sy = 10 ≥ Ho = 3` but `Hi = 2 < Ho`, the cut
height is `Hi = 2`, not zero, so cells are written and the outer buffer does
not keep its initial contents. -/
theorem scroll_offset_beyond_not_always_empty :
    10 ≥ c4OuterRect.height ∧
    (cutOf (0, 10) c4OuterRect c4InnerRect).height ≠ 0 ∧
    (scroll (0, 10) c4OuterRect c4InnerRect c4InnerBuf c4OuterBuf).content 0
      ≠ c4OuterBuf.content 0 := by decide

/-- Helper: a copy loop with a zero-size cut on either axis writes nothing. -/
theorem copyLoop_zero {α : Type} (outer : Rect) (innerW : Nat) (src c0 : Nat → α)
    {cw ch : Nat} (h : cw = 0 ∨ ch = 0) :
    copyLoop outer innerW src cw ch c0 = c0 := by
  funext i
  apply copyLoop_untouched
  intro y hy x hx heq
  rcases h with h | h
  · rw [h] at hx
    exact absurd hx (Nat.not_lt_zero x)
  · rw [h] at hy
    exact absurd hy (Nat.not_lt_zero y)

/-- C4 (amended): for an offset at or beyond an outer dimension the blit
clamps the offset to that outer dimension; when additionally the inner size
on that axis is at least the outer size (as in scenario S3), the copy
region is zero-size on that axis, no cells are written, and the outer
buffer keeps its initial contents.  Without `Hi ≥ Ho` (respectively
`Wi ≥ Wo`) the cut falls back to the inner size and cells are written. -/
theorem scroll_offset_beyond_amended {α : Type} (scr : Nat × Nat)
    (outer inner : Rect) (ib ob : Buffer α) :
    (scr.2 ≥ outer.height →
      min scr.2 outer.height = outer.height ∧
      (inner.height ≥ outer.height →
        (cutOf scr outer inner).height = 0 ∧ scroll scr outer inner ib ob = ob)) ∧
    (scr.1 ≥ outer.width →
      min scr.1 outer.width = outer.width ∧
      (inner.width ≥ outer.width →
        (cutOf scr outer inner).width = 0 ∧ scroll scr outer inner ib ob = ob)) := by
  constructor
  · intro hsy
    refine ⟨by omega, fun hHi => ?_⟩
    have hch : (cutOf scr outer inner).height = 0 := by
      simp only [cutOf, Rect.new, posOf]
      rw [if_pos hHi]
      omega
    refine ⟨hch, ?_⟩
    unfold scroll
    rw [copyLoop_zero outer inner.width ib.content ob.content (Or.inr hch)]
  · intro hsx
    refine ⟨by omega, fun hWi => ?_⟩
    have hcw : (cutOf scr outer inner).width = 0 := by
      simp only [cutOf, Rect.new, posOf]
      rw [if_pos hWi]
      omega
    refine ⟨hcw, ?_⟩
    unfold scroll
    rw [copyLoop_zero outer inner.width ib.content ob.content (Or.inl hcw)]

/-- Concrete data for the amended C4, scenario S3: inner 2 by 5, outer
2 by 3, offset `(0, 10)`. -/
def s3OuterRect : Rect := Rect.new 0 0 2 3

def s3InnerRect : Rect := Rect.new 0 0 2 5

def s3InnerBuf : Buffer Nat := ⟨s3InnerRect, fun i => i + 10⟩

def s3OuterBuf : Buffer Nat := ⟨s3OuterRect, fun _ => 0⟩

/-- Closed instance of `scroll_offset_beyond_amended` on scenario S3. -/
theorem scroll_offset_beyond_amended_inst :
    min 10 s3OuterRect.height = s3OuterRect.height ∧
    (cutOf (0, 10) s3OuterRect s3InnerRect).height = 0 ∧
    scroll (0, 10) s3OuterRect s3InnerRect s3InnerBuf s3OuterBuf = s3OuterBuf := by
  have h := (scroll_offset_beyond_amended (0, 10) s3OuterRect s3InnerRect
    s3InnerBuf s3OuterBuf).1 (by decide)
  exact ⟨h.1, h.2 (by decide)⟩

/-- Concrete data refuting C2: the outer buffer is 3 wide but the outer
rectangle only 2 wide, so the loop's stride disagrees with the buffer's. -/
def c2OuterRect : Rect := Rect.new 0 0 2 2

def c2InnerRect : Rect := Rect.new 0 0 2 2

def c2InnerBuf : Buffer Nat := ⟨c2InnerRect, fun _ => 5⟩

def c2OuterBuf : Buffer Nat := ⟨Rect.new 0 0 3 2, fun _ => 0⟩

/-- Counterexample to C2: the write of loop iteration `(y, x) = (1, 0)`
lands at flat index 2, which in the width-3 outer buffer is the cell at
coordinates `(2, 0)` — horizontally outside the outer rectangle, since
`2 ≥ Ox + Wo` — and its value changes. -/
theorem scroll_writes_outside_outer_rect :
    2 ≥ c2OuterRect.x + c2OuterRect.width ∧
    0 * c2OuterBuf.area.width + 2
      < c2OuterBuf.area.width * c2OuterBuf.area.height ∧
    (scroll (0, 0) c2OuterRect c2InnerRect c2InnerBuf c2OuterBuf).content
        (0 * c2OuterBuf.area.width + 2)
      ≠ c2OuterBuf.content (0 * c2OuterBuf.area.width + 2) := by decide

/-- C2 (amended): provided the outer rectangle spans the full width of the
outer buffer (`ob.area.width = Wo` and `Ox = 0`, the only geometry under
which the loop's stride matches the buffer's row stride) and the
rectangle's u16 index arithmetic stays in range (`(Oy + Ho) * Wo ≤ 65536`),
the blit modifies no buffer cell at coordinates `(x, y)` with `x < Ox`,
`x ≥ Ox + Wo`, `y < Oy`, or `y ≥ Oy + Ho`.  Past 65535 the u16 write index
wraps into rows above the rectangle. -/
theorem scroll_inside_outer_rect_amended {α : Type} (scr : Nat × Nat)
    (outer inner : Rect) (ib ob : Buffer α)
    (hw : ob.area.width = outer.width) (hox : outer.x = 0)
    (hfit : (outer.y + outer.height) * outer.width ≤ 65536)
    (x y : Nat) (hxW : x < ob.area.width)
    (hout : x < outer.x ∨ x ≥ outer.x + outer.width ∨ y < outer.y ∨
      y ≥ outer.y + outer.height) :
    (scroll scr outer inner ib ob).content (y * ob.area.width + x)
      = ob.content (y * ob.area.width + x) := by
  show copyLoop outer inner.width ib.content (cutOf scr outer inner).width
      (cutOf scr outer inner).height ob.content (y * ob.area.width + x)
    = ob.content (y * ob.area.width + x)
  apply copyLoop_untouched
  intro y2 hy2 x2 hx2 heq
  rw [hw] at hxW heq
  have hcw := (cutOf_width_le scr outer inner).1
  have hch := (cutOf_height_le scr outer inner).1
  have hval : (outer.y + y2) * outer.width + (outer.x + x2) < 65536 := by
    have h5 : (outer.y + y2) * outer.width + (outer.x + x2)
        < (outer.y + y2 + 1) * outer.width := by
      rw [Nat.succ_mul]
      exact Nat.add_lt_add_left (by omega) _
    have h6 : (outer.y + y2 + 1) * outer.width
        ≤ (outer.y + outer.height) * outer.width :=
      Nat.mul_le_mul_right _ (by omega)
    omega
  rw [dstIndex_eq_of_fit outer hval] at heq
  rw [hox, Nat.zero_add] at heq
  have hx2W : x2 < outer.width := Nat.lt_of_lt_of_le hx2 hcw
  obtain ⟨hyy, hxx⟩ := rowMajor_inj hxW hx2W heq
  omega

/-- Concrete data for the amended C2: the outer rectangle `(0, 2, 2, 2)`
spans the full width of a 2 by 6 outer buffer. -/
def c2wOuterRect : Rect := Rect.new 0 2 2 2

def c2wInnerBuf : Buffer Nat := ⟨Rect.new 0 0 2 2, fun _ => 5⟩

def c2wOuterBuf : Buffer Nat := ⟨Rect.new 0 0 2 6, fun _ => 9⟩

/-- Closed instance of `scroll_inside_outer_rect_amended`: the cell at
coordinates `(0, 5)`, below the outer rectangle, is untouched. -/
theorem scroll_inside_outer_rect_amended_inst :
    (scroll (0, 0) c2wOuterRect (Rect.new 0 0 2 2) c2wInnerBuf
        c2wOuterBuf).content (5 * c2wOuterBuf.area.width + 0)
      = c2wOuterBuf.content (5 * c2wOuterBuf.area.width + 0) :=
  scroll_inside_outer_rect_amended (0, 0) c2wOuterRect (Rect.new 0 0 2 2)
    c2wInnerBuf c2wOuterBuf rfl rfl (by decide) 0 5 (by decide)
    (Or.inr (Or.inr (Or.inr (by decide))))

/-- Helper: every write of the blit lands below 2^16 (the u16 index range),
so cells at flat indices 65536 and above are never touched. -/
theorem scroll_untouched_of_ge {α : Type} (scr : Nat × Nat) (outer inner : Rect)
    (ib ob : Buffer α) {i : Nat} (hi : 65536 ≤ i) :
    (scroll scr outer inner ib ob).content i = ob.content i := by
  show copyLoop outer inner.width ib.content (cutOf scr outer inner).width
      (cutOf scr outer inner).height ob.content i = ob.content i
  apply copyLoop_untouched
  intro y hy x hx heq
  have h2 := dstIndex_lt_wrap outer y x
  rw [heq] at hi
  exact absurd h2 (Nat.not_lt.2 hi)

/-- Concrete data refuting C5: a 300 by 300 inner rendered at an equal-size
outer rectangle with offset `(0, 0)`; from row 219 on the u16 index
arithmetic wraps (`219 * 300 = 65700 > 65535`). -/
def bigWidget : Rect → Buffer Nat → Buffer Nat := fun _ b => ⟨b.area, fun i => i + 10⟩

def bigArea : ScrollArea Nat := ScrollArea.new bigWidget (300, 300)

def bigOuterRect : Rect := Rect.new 0 0 300 300

def bigOuterBuf : Buffer Nat := ⟨bigOuterRect, fun _ => 0⟩

/-- Counterexample to C5: inner size equals outer size (300 by 300) and the
offset is `(0, 0)`, yet the outer-rectangle cell at `(Ox + 0, Oy + 219)` —
flat index 65700 — does not receive the inner buffer's cell `(0, 219)`:
every u16-computed write index is below 65536, so cell 65700 keeps its
initial 0 while the inner cell holds 65710. -/
theorem render_identity_copy_cex :
    bigArea.inner.1 = bigOuterRect.width ∧
    bigArea.inner.2 = bigOuterRect.height ∧
    (StatefulScrollState.new ()).pos = (0, 0) ∧
    219 < bigArea.inner.2 ∧ 0 < bigArea.inner.1 ∧
    (bigArea.render bigOuterRect bigOuterBuf (StatefulScrollState.new ())).content
        ((bigOuterRect.y + 219) * bigOuterRect.width + (bigOuterRect.x + 0))
      ≠ (bigArea.widget (Rect.new 0 0 bigArea.inner.1 bigArea.inner.2)
          (Buffer.empty default (Rect.new 0 0 bigArea.inner.1 bigArea.inner.2))).content
          (219 * bigArea.inner.1 + 0) := by
  refine ⟨rfl, rfl, rfl, by decide, by decide, ?_⟩
  have hL : (bigArea.render bigOuterRect bigOuterBuf (StatefulScrollState.new ())).content
      ((bigOuterRect.y + 219) * bigOuterRect.width + (bigOuterRect.x + 0))
      = bigOuterBuf.content
          ((bigOuterRect.y + 219) * bigOuterRect.width + (bigOuterRect.x + 0)) :=
    scroll_untouched_of_ge (StatefulScrollState.new ()).pos bigOuterRect
      (Rect.new 0 0 bigArea.inner.1 bigArea.inner.2)
      (bigArea.widget (Rect.new 0 0 bigArea.inner.1 bigArea.inner.2)
        (Buffer.empty default (Rect.new 0 0 bigArea.inner.1 bigArea.inner.2)))
      bigOuterBuf (by decide)
  rw [hL]
  decide

/-- C5 (amended): when the inner size equals the outer size, the offset is
`(0, 0)`, and the rectangle's u16 index arithmetic stays in range
(`(Oy + Ho) * Wo + Ox + Wo ≤ 65536` and `Hi * Wi + Wi ≤ 65536`), the
stateless render copies the entire inner buffer verbatim: the
outer-rectangle cell at `(Oy + y) * Wo + (Ox + x)` equals the rendered
inner buffer's cell `y * Wi + x`, for all `x < Wi` and `y < Hi`.  With
larger areas the u16 indices wrap from the cell where the arithmetic first
exceeds 65535. -/
theorem render_identity_copy_amended {α : Type} [Inhabited α] (self : ScrollArea α)
    (outer : Rect) (ob : Buffer α) (st : StatefulScrollState Unit)
    (hW : self.inner.1 = outer.width) (hH : self.inner.2 = outer.height)
    (hpos : st.pos = (0, 0))
    (hdfit : (outer.y + outer.height) * outer.width + outer.x + outer.width ≤ 65536)
    (hsfit : self.inner.2 * self.inner.1 + self.inner.1 ≤ 65536)
    (x y : Nat) (hx : x < self.inner.1) (hy : y < self.inner.2) :
    (self.render outer ob st).content ((outer.y + y) * outer.width + (outer.x + x))
      = (self.widget (Rect.new 0 0 self.inner.1 self.inner.2)
          (Buffer.empty default (Rect.new 0 0 self.inner.1 self.inner.2))).content
          (y * self.inner.1 + x) := by
  have hcw : (cutOf st.pos outer (Rect.new 0 0 self.inner.1 self.inner.2)).width
      = outer.width := by
    simp only [cutOf, Rect.new, posOf, hpos]
    rw [if_pos (by omega)]
    omega
  have hch : (cutOf st.pos outer (Rect.new 0 0 self.inner.1 self.inner.2)).height
      = outer.height := by
    simp only [cutOf, Rect.new, posOf, hpos]
    rw [if_pos (by omega)]
    omega
  have hdfit2 : (outer.y
        + (cutOf st.pos outer (Rect.new 0 0 self.inner.1 self.inner.2)).height)
          * outer.width + outer.x
        + (cutOf st.pos outer (Rect.new 0 0 self.inner.1 self.inner.2)).width
      ≤ 65536 := by
    rw [hcw, hch]
    exact hdfit
  have hy2 : y < (cutOf st.pos outer (Rect.new 0 0 self.inner.1 self.inner.2)).height := by
    omega
  have hx2 : x < (cutOf st.pos outer (Rect.new 0 0 self.inner.1 self.inner.2)).width := by
    omega
  have hv1 : (outer.y + y) * outer.width + (outer.x + x) < 65536 :=
    dstValue_fit outer hy2 hx2 hdfit2
  have hv2 : y * self.inner.1 + x < 65536 :=
    srcValue_fit self.inner.1 hy hx hsfit
  rw [← dstIndex_eq_of_fit outer hv1, ← srcIndex_eq_of_fit self.inner.1 hv2]
  exact copyLoop_written_of_fit outer
    (Rect.new 0 0 self.inner.1 self.inner.2).width
    (self.widget (Rect.new 0 0 self.inner.1 self.inner.2)
      (Buffer.empty default (Rect.new 0 0 self.inner.1 self.inner.2))).content
    ob.content
    (cutOf_width_le st.pos outer (Rect.new 0 0 self.inner.1 self.inner.2)).1
    hy2 hx2 hdfit2

/-- Concrete widget and buffers for the render instances: the inner widget
paints cell `i` with `i + 10`. -/
def c5Widget : Rect → Buffer Nat → Buffer Nat := fun _ b => ⟨b.area, fun i => i + 10⟩

def c5Area : ScrollArea Nat := ScrollArea.new c5Widget (2, 2)

def c5OuterRect : Rect := Rect.new 0 0 2 2

def c5OuterBuf : Buffer Nat := ⟨c5OuterRect, fun _ => 0⟩

/-- Closed instance of `render_identity_copy_amended` at cell `(1, 1)`. -/
theorem render_identity_copy_amended_inst :
    (c5Area.render c5OuterRect c5OuterBuf (StatefulScrollState.new ())).content 3
      = 13 := by
  have h := render_identity_copy_amended c5Area c5OuterRect c5OuterBuf
    (StatefulScrollState.new ()) rfl rfl rfl (by decide) (by decide) 1 1
    (by decide) (by decide)
  exact h

/-- Helper: blitting the same source into the blit's own output changes
nothing.  This needs no injectivity of the destination indices, so it holds
even where the u16 index arithmetic wraps and iterations collide: the
second pass replays the identical write sequence. -/
theorem scroll_idem {α : Type} (scr : Nat × Nat) (outer inner : Rect)
    (ib ob : Buffer α) :
    scroll scr outer inner ib (scroll scr outer inner ib ob)
      = scroll scr outer inner ib ob := by
  unfold scroll
  congr 1
  simp only [copyLoop_eq_applyWrites]
  exact applyWrites_idem _ _ _ _

/-- C8: two successive renders of the same widget with the same scroll
state produce identical outer buffers: blitting into the buffer produced by
the first render leaves it unchanged.  The proof needs no injectivity of
the write indices, so the law holds even at inputs where the u16 index
arithmetic wraps: the second render replays the identical write sequence. -/
theorem render_idempotent {α : Type} [Inhabited α] (self : ScrollArea α)
    (outer : Rect) (ob : Buffer α) (st : StatefulScrollState Unit) :
    self.render outer (self.render outer ob st) st
      = self.render outer ob st :=
  scroll_idem st.pos outer (Rect.new 0 0 self.inner.1 self.inner.2)
    (self.widget (Rect.new 0 0 self.inner.1 self.inner.2)
      (Buffer.empty default (Rect.new 0 0 self.inner.1 self.inner.2))) ob

/-- Closed instance of `render_idempotent` at concrete data. -/
theorem render_idempotent_inst :
    c5Area.render c5OuterRect
        (c5Area.render c5OuterRect c5OuterBuf (StatefulScrollState.new ()))
        (StatefulScrollState.new ())
      = c5Area.render c5OuterRect c5OuterBuf (StatefulScrollState.new ()) :=
  render_idempotent c5Area c5OuterRect c5OuterBuf (StatefulScrollState.new ())

end TuiToolkit
